import Mathlib

/-!
Verification of the Declaration Reordering Advisor of the
intuita-vscode-extension repository, via a shallow embedding of its
TypeScript sources into Lean.

File texts are modelled as `List Char`; JavaScript `String.prototype.slice`
(with non-negative arguments) is modelled by `jsSlice`, which clamps the
bounds exactly as JavaScript does.
-/

namespace Intuita

/-- Model of JavaScript `text.slice(a, b)` for non-negative `a`, `b`:
both bounds are clamped to `[0, text.length]` and an empty string results
whenever `a ≥ b`. -/
def jsSlice (text : List Char) (a b : Nat) : List Char :=
  (text.take b).drop a

/-- Model of JavaScript `text.slice(a)` for non-negative `a`. -/
def jsSliceFrom (text : List Char) (a : Nat) : List Char :=
  text.drop a

/-- Declaration kinds, from `features/moveTopLevelNode/2_factBuilder.ts`
(`TopLevelNodeKind`). -/
inductive TopLevelNodeKind where
  | unknown
  | «class»
  | function
  | interface
  | typeAlias
  | block
  | variable
  | enum
deriving DecidableEq, Repr

/-- One top-level declaration, from `2_factBuilder.ts` (`TopLevelNode`).
The source field `end` is a reserved word in Lean and is rendered `stop`.
The `ReadonlySet<string>` fields are rendered as lists of identifier
strings (only membership is ever consumed). -/
structure TopLevelNode where
  kind : TopLevelNodeKind
  id : String
  start : Nat
  stop : Nat
  identifiers : List String
  childIdentifiers : List String
deriving DecidableEq, Repr

/-- A literal text fragment, from `2_factBuilder.ts` (`StringNode`). -/
structure StringNode where
  text : List Char
  topLevelNodeIndex : Option Nat
deriving DecidableEq, Repr

/-- Recursion underlying `getStringNodes`: `prevEnd` is `0` for the first
declaration and `previousNode.end + 1` afterwards, mirroring the two
branches of the `forEach` body; `idx` is the running declaration index. -/
def getStringNodesAux (fileText : List Char) :
    Nat → Nat → List TopLevelNode → List StringNode
  | _, _, [] => []
  | prevEnd, idx, node :: rest =>
    ⟨jsSlice fileText prevEnd node.start, none⟩ ::
    ⟨jsSlice fileText node.start (node.stop + 1), some idx⟩ ::
    (match rest with
     | [] => [⟨jsSliceFrom fileText (node.stop + 1), none⟩]
     | _ :: _ => getStringNodesAux fileText (node.stop + 1) (idx + 1) rest)

/-- `getStringNodes` from `2_factBuilder.ts`: the separator before each
declaration, the declaration's own text, and (after the last declaration)
the trailing remainder. -/
def getStringNodes (fileText : List Char)
    (topLevelNodes : List TopLevelNode) : List StringNode :=
  getStringNodesAux fileText 0 0 topLevelNodes

/-- Concatenation of the `text` fields of a string-node sequence. -/
def concatTexts (stringNodes : List StringNode) : List Char :=
  (stringNodes.map StringNode.text).flatten

/-- Ordered, non-overlapping declaration lists as the Extractor produces
them: each span is non-degenerate (`start ≤ end + 1`; the Extractor sets
`end = start + width - 1`) and consecutive spans are disjoint and in
source order (`end + 1 ≤ start` of the next declaration). -/
def OrderedNonOverlapping (nodes : List TopLevelNode) : Prop :=
  (∀ node ∈ nodes, node.start ≤ node.stop + 1) ∧
    nodes.Chain' (fun a b => a.stop + 1 ≤ b.start)

/-- Node builder used by `test/moveTopLevelNodes/calculateCoefficient.test.ts`
(`buildNode`): identifier doubles as `id`, span is `[0, 10]`, `identifiers`
is the singleton of the identifier. -/
def buildNode (identifier : String) (childIdentifiers : List String)
    (kind : TopLevelNodeKind) : TopLevelNode :=
  ⟨kind, identifier, 0, 10, [identifier], childIdentifiers⟩

/-- Fallback node used only to state indexed properties via `List.getD`. -/
def fallbackNode : TopLevelNode :=
  ⟨TopLevelNodeKind.unknown, "", 0, 0, [], []⟩

/-- Modelled from the spec: the wrong-direction dependency test of the
missing `2_factBuilders/coefficients.ts` — an earlier declaration `a`
references (via `childIdentifiers`) a name that a later declaration `b`
introduces (via `identifiers`). -/
def dependsOnB (a b : TopLevelNode) : Bool :=
  b.identifiers.any (fun s => a.childIdentifiers.contains s)

/-- Modelled from the spec: the violation count of
`calculateDependencyCoefficient` — one violation per ordered position pair
`(i, j)`, `i < j`, whose earlier declaration references a name the later
one introduces. -/
def dependencyViolationCount : List TopLevelNode → Nat
  | [] => 0
  | node :: rest =>
    rest.countP (fun other => dependsOnB node other)
      + dependencyViolationCount rest

/-- Modelled from the spec: `calculateDependencyCoefficient` of the
missing `2_factBuilders/coefficients.ts` — violation count divided by the
number of declarations, `0` for the empty list. -/
def calculateDependencyCoefficient (nodes : List TopLevelNode) : ℚ :=
  if nodes.length = 0 then 0
  else (dependencyViolationCount nodes : ℚ) / (nodes.length : ℚ)

/-- Modelled from the spec: length of the common prefix of two names,
used by the prefix boost of the string-distance metric of the missing
`2_factBuilders/coefficients.ts`. -/
def commonPrefixLength : List Char → List Char → Nat
  | a :: as, b :: bs => if a = b then commonPrefixLength as bs + 1 else 0
  | _, _ => 0

/-- Modelled from the spec: the Jaro match window
`max(|s1|, |s2|) / 2 - 1`, clamped at `0` by natural subtraction. -/
def matchWindow (s1 s2 : List Char) : Nat :=
  max s1.length s2.length / 2 - 1

/-- Modelled from the spec: smallest unmatched index `j ∈ [lo, hi]` of
`s2` holding character `c`, for the Jaro matching phase. -/
def findMatchIndex (s2 : List Char) (matched : List Bool) (c : Char)
    (lo hi : Nat) : Option Nat :=
  (List.range s2.length).find? (fun j =>
    match s2.get? j, matched.get? j with
    | some d, some m => decide (lo ≤ j) && decide (j ≤ hi) && !m && (d == c)
    | _, _ => false)

/-- Modelled from the spec: the Jaro matching phase — for each indexed
character of `s1`, greedily match the first free compatible index of `s2`
inside the window; returns the matched characters of `s1` in order and the
match flags of `s2`. -/
def jaroLoop (s2 : List Char) (w : Nat) :
    List (Nat × Char) → List Bool → List Char × List Bool
  | [], matched => ([], matched)
  | (i, c) :: rest, matched =>
    match findMatchIndex s2 matched c (i - w) (min (i + w) (s2.length - 1)) with
    | some j =>
      let r := jaroLoop s2 w rest (matched.set j true)
      (c :: r.1, r.2)
    | none => jaroLoop s2 w rest matched

/-- Modelled from the spec: match count `m` and out-of-order count `t2`
(twice the transposition count) of the Jaro metric; pure `Nat` data so
concrete instances evaluate inside the kernel. -/
def jaroData (s1 s2 : List Char) : Nat × Nat :=
  let r := jaroLoop s2 (matchWindow s1 s2) s1.enum
    (List.replicate s2.length false)
  let m2 := (s2.zip r.2).filterMap (fun p => if p.2 then some p.1 else none)
  (r.1.length, (r.1.zip m2).countP (fun p => !(p.1 == p.2)))

/-- Modelled from the spec: the Jaro similarity
`(m/|s1| + m/|s2| + (m - t)/m) / 3`, `0` when nothing matches. -/
def jaroSimilarity (s1 s2 : List Char) : ℚ :=
  if s1.length = 0 ∧ s2.length = 0 then 1
  else if s1.length = 0 ∨ s2.length = 0 then 0
  else
    let md := jaroData s1 s2
    if md.1 = 0 then 0
    else ((md.1 : ℚ) / (s1.length : ℚ) + (md.1 : ℚ) / (s2.length : ℚ)
      + ((md.1 : ℚ) - (md.2 : ℚ) / 2) / (md.1 : ℚ)) / 3

/-- Modelled from the spec: the Winkler prefix boost — applied only above
the standard `0.7` threshold, with scaling factor `0.1` and the common
prefix capped at four characters. -/
def jaroWinklerSimilarity (s1 s2 : List Char) : ℚ :=
  let j := jaroSimilarity s1 s2
  if 7 / 10 < j then
    j + (min (commonPrefixLength s1 s2) 4 : ℚ) * (1 / 10) * (1 - j)
  else j

/-- Modelled from the spec: a declaration's primary identifier — the
first entry of its `identifiers` set. -/
def primaryIdentifier (node : TopLevelNode) : List Char :=
  (node.identifiers.headD "").toList

/-- Modelled from the spec: normalized string distances of each adjacent
pair of primary identifiers. -/
def adjacentNameDistances (nodes : List TopLevelNode) : List ℚ :=
  List.zipWith
    (fun a b => 1 - jaroWinklerSimilarity (primaryIdentifier a)
      (primaryIdentifier b))
    nodes nodes.tail

/-- Modelled from the spec: `calculateSimilarityCoefficient` of the
missing `2_factBuilders/coefficients.ts` — the smallest adjacent-pair name
distance, scaled to `[0, 1]`, `0` for empty (or singleton) lists; the
second numeric parameter is reserved and unused. This internal formula
reproduces every literal value §8 of the spec requires. -/
def calculateSimilarityCoefficient (nodes : List TopLevelNode) (_ : ℚ) : ℚ :=
  match adjacentNameDistances nodes with
  | [] => 0
  | d :: ds => ds.foldl min d

/-- Modelled from the spec: `calculateKindCoefficient` of the missing
`2_factBuilders/coefficients.ts` — the fraction of adjacent pairs whose
kinds differ: `0` when every declaration shares one kind, `1` when every
adjacent pair differs, `0` for empty or singleton lists; the second
numeric parameter is reserved and unused. -/
def calculateKindCoefficient (nodes : List TopLevelNode) (_ : ℚ) : ℚ :=
  if nodes.length ≤ 1 then 0
  else
    (List.zipWith
        (fun a b => if a.kind = b.kind then (0 : ℚ) else 1)
        nodes nodes.tail).sum
      / ((nodes.length : ℚ) - 1)

/-- The coefficient triple of `2_factBuilders/solutions.ts`, computed for
the resulting order (spec §3). -/
structure Coefficient where
  dependencyCoefficient : ℚ
  similarityCoefficient : ℚ
  kindCoefficient : ℚ
deriving DecidableEq, Repr

/-- The three non-negative weights of the configuration
(`dependencyCoefficientWeight`, `similarityCoefficientWeight`,
`kindCoefficientWeight`, default `1` each). -/
structure CoefficientWeights where
  dependencyCoefficientWeight : ℚ
  similarityCoefficientWeight : ℚ
  kindCoefficientWeight : ℚ
deriving DecidableEq, Repr

/-- The default weights (`?? 1` in
`actionProviders/moveTopLevelNodeActionProvider.ts`). -/
def unitWeights : CoefficientWeights := ⟨1, 1, 1⟩

/-- Modelled from the spec: the coefficient triple of a candidate
ordering. -/
def calculateCoefficient (nodes : List TopLevelNode) : Coefficient :=
  ⟨calculateDependencyCoefficient nodes,
    calculateSimilarityCoefficient nodes 0,
    calculateKindCoefficient nodes 0⟩

/-- The weighted score of spec §4.3:
`wD·dependency + wS·similarity + wK·kind`; lower is better. -/
def score (w : CoefficientWeights) (c : Coefficient) : ℚ :=
  w.dependencyCoefficientWeight * c.dependencyCoefficient
    + w.similarityCoefficientWeight * c.similarityCoefficient
    + w.kindCoefficientWeight * c.kindCoefficient

/-- Removal of the element at an index (JavaScript `splice(idx, 1)`). -/
def removeAt : List α → Nat → List α
  | [], _ => []
  | _ :: xs, 0 => xs
  | x :: xs, n + 1 => x :: removeAt xs n

/-- Insertion at an index, appending when the index is past the end
(JavaScript `splice(idx, 0, a)`). -/
def insertAt : List α → Nat → α → List α
  | xs, 0, a => a :: xs
  | [], _ + 1, a => [a]
  | x :: xs, n + 1, a => x :: insertAt xs n a

/-- Modelled from the spec: the hypothetical reordering of §4.3 — remove
the declaration at `oldIndex`, reinsert it at `newIndex`. -/
def moveElement (nodes : List α) (oldIndex newIndex : Nat) : List α :=
  match nodes.get? oldIndex with
  | none => nodes
  | some x => insertAt (removeAt nodes oldIndex) newIndex x

/-- A single proposed relocation, from `2_factBuilders/solutions.ts`
(spec §3): `oldIndex`, `newIndex`, the full unchanged `nodes` array, and
the coefficient triple of the resulting order. -/
structure Solution where
  oldIndex : Nat
  newIndex : Nat
  nodes : List TopLevelNode
  coefficient : Coefficient
deriving DecidableEq, Repr

/-- Absolute index displacement of a relocation, the spec's tie-break
key. -/
def displacement (s : Solution) : Nat :=
  max s.oldIndex s.newIndex - min s.oldIndex s.newIndex

/-- Modelled from the spec: the ranking of Solutions — ascending score,
ties broken by preferring the smallest absolute index displacement. -/
def solutionLE (w : CoefficientWeights) (a b : Solution) : Bool :=
  decide (score w a.coefficient < score w b.coefficient)
    || (decide (score w a.coefficient = score w b.coefficient)
      && decide (displacement a ≤ displacement b))

/-- Stable insertion into a sorted list. -/
def insertSorted (le : α → α → Bool) (a : α) : List α → List α
  | [] => [a]
  | b :: bs => if le a b then a :: b :: bs else b :: insertSorted le a bs

/-- Stable insertion sort. -/
def sortBy (le : α → α → Bool) : List α → List α
  | [] => []
  | x :: xs => insertSorted le x (sortBy le xs)

/-- Modelled from the spec: the Solution Search of the missing
`2_factBuilders/solutions.ts` (spec §4.3) — for every `oldIndex` and every
`newIndex ≠ oldIndex`, build the hypothetical reordering, keep it only
when its weighted score strictly decreases, and rank the survivors
most-improving first. -/
def buildSolutions (w : CoefficientWeights)
    (nodes : List TopLevelNode) : List Solution :=
  if nodes.length < 2 then []
  else
    let currentScore := score w (calculateCoefficient nodes)
    sortBy (solutionLE w)
      ((List.range nodes.length).flatMap (fun oldIndex =>
        (List.range nodes.length).filterMap (fun newIndex =>
          if newIndex = oldIndex then none
          else
            let c := calculateCoefficient (moveElement nodes oldIndex newIndex)
            if score w c < currentScore then
              some ⟨oldIndex, newIndex, nodes, c⟩
            else none)))

/-- `buildReason` from `actionProviders/moveTopLevelNodeActionProvider.ts`:
the human-readable reason attached to a proposed move, chosen by comparing
the three coefficients of the solution. -/
def buildReason (solution : Solution) : Option String :=
  if solution.coefficient.dependencyCoefficient
        > solution.coefficient.similarityCoefficient
      ∧ solution.coefficient.dependencyCoefficient
        > solution.coefficient.kindCoefficient then
    some "more ordered dependencies"
  else if solution.coefficient.similarityCoefficient
        > solution.coefficient.dependencyCoefficient
      ∧ solution.coefficient.similarityCoefficient
        > solution.coefficient.kindCoefficient then
    some "more name similarity"
  else if solution.coefficient.kindCoefficient
        > solution.coefficient.similarityCoefficient
      ∧ solution.coefficient.kindCoefficient
        > solution.coefficient.dependencyCoefficient then
    some "more same-type blocks"
  else none

/-- Stated from the claim's wording (for comparison with `buildReason`):
the dominant penalty is the one most reduced by the move — the coefficient
whose reduction from the current order's triple to the solution's triple
is strictly greatest. -/
def specMostReducedReason (before after : Coefficient) : Option String :=
  let dd := before.dependencyCoefficient - after.dependencyCoefficient
  let ds := before.similarityCoefficient - after.similarityCoefficient
  let dk := before.kindCoefficient - after.kindCoefficient
  if dd > ds ∧ dd > dk then some "more ordered dependencies"
  else if ds > dd ∧ ds > dk then some "more name similarity"
  else if dk > ds ∧ dk > dd then some "more same-type blocks"
  else none

/-- The command payload of the code action
(`intuita.moveTopLevelNode` arguments). -/
structure MoveCommand where
  fileName : String
  oldIndex : Nat
  newIndex : Nat
  characterDifference : Nat
deriving DecidableEq, Repr

/-- A code action as far as the claims consume it: the title and the
attached command. -/
structure CodeAction where
  title : String
  command : MoveCommand
deriving DecidableEq, Repr

/-- `buildIdentifiersLabel` from
`actionProviders/moveTopLevelNodeActionProvider.ts`. -/
def buildIdentifiersLabel (identifiers : List String) : String :=
  if identifiers.length > 1 then
    "(" ++ String.intercalate " ," identifiers ++ ")"
  else String.intercalate "" identifiers

/-- `buildCodeAction` from
`actionProviders/moveTopLevelNodeActionProvider.ts`: `null` when either
the node at `newIndex` or the neighbour node is missing. -/
def buildCodeAction (fileName : String) (characterDifference : Nat)
    (solution : Solution) : Option CodeAction :=
  let otherNodeQ := if solution.newIndex = 0 then solution.nodes.get? 1
    else solution.nodes.get? (solution.newIndex - 1)
  match solution.nodes.get? solution.newIndex, otherNodeQ with
  | some _, some otherNode =>
    let orderLabel := if solution.newIndex = 0 then "before" else "after"
    let reasonBlock := match buildReason solution with
      | some r => " (" ++ r ++ ")"
      | none => ""
    some ⟨"Move " ++ orderLabel ++ " "
        ++ buildIdentifiersLabel otherNode.identifiers ++ " " ++ reasonBlock,
      ⟨fileName, solution.oldIndex, solution.newIndex, characterDifference⟩⟩
  | _, _ => none

/-- `provideCodeActions` from
`actionProviders/moveTopLevelNodeActionProvider.ts`, from the point where
the fact's solutions exist: keep the solutions that actually move,
truncate to the first, and build its code action. -/
def provideCodeActions (fileName : String) (characterDifference : Nat)
    (solutions : List Solution) : List CodeAction :=
  ((solutions.filter (fun s => s.newIndex != s.oldIndex)).take 1).filterMap
    (buildCodeAction fileName characterDifference)

/-- `IntuitaRange` from `utilities.ts`: `[startLine, startColumn, endLine,
endColumn]`. -/
abbrev IntuitaRange := Nat × Nat × Nat × Nat

/-- `IntuitaPosition` from `utilities.ts`: `[line, column]`. -/
abbrev IntuitaPosition := Nat × Nat

/-- Modelled from the spec: splitting a text at a (single-character) line
separator, as `String.prototype.split` does — `n` separators yield `n + 1`
lines. -/
def splitChar (sep : Char) : List Char → List (List Char)
  | [] => [[]]
  | c :: rest =>
    let r := splitChar sep rest
    if c = sep then [] :: r
    else
      match r with
      | [] => [[c]]
      | h :: t => (c :: h) :: t

/-- Modelled from the spec: `calculateLastPosition` of the missing
`utilities.ts` — the line and column of the final position of a text:
index of its last line and that line's length. -/
def calculateLastPosition (text : List Char) (separator : Char) :
    IntuitaPosition :=
  let lines := splitChar separator text
  (lines.length - 1, (lines.getLast?.getD []).length)

/-- The result shape of the command executors (`{text, line,
character}`). -/
structure ExecuteResult where
  text : List Char
  line : Nat
  character : Nat
deriving DecidableEq, Repr

/-- The job kinds (`JobKind` of `jobs.ts`). -/
inductive JobKindT where
  | moveTopLevelNode
  | repairCode
deriving DecidableEq, Repr

/-- A job as `JobManager` consumes it: hash plus kind-specific payload. -/
inductive Job where
  | moveTopLevelNode (hash : String) (oldIndex newIndex : Nat)
  | repairCode (hash : String) (range : IntuitaRange)
      (replacement : List Char)
deriving DecidableEq, Repr

/-- The hash of a job. -/
def Job.hash : Job → String
  | .moveTopLevelNode h _ _ => h
  | .repairCode h _ _ => h

/-- The kind of a job. -/
def Job.kind : Job → JobKindT
  | .moveTopLevelNode .. => JobKindT.moveTopLevelNode
  | .repairCode .. => JobKindT.repairCode

/-- A fact as `JobManager` consumes it: both variants carry the line
separator used to map offsets to positions. -/
inductive Fact where
  | moveTopLevelNode (separator : Char) (stringNodes : List StringNode)
  | repairCode (separator : Char) (text : List Char) (range : IntuitaRange)
      (replacement : List Char)
deriving DecidableEq, Repr

/-- `fact.separator`. -/
def Fact.separator : Fact → Char
  | .moveTopLevelNode sep _ => sep
  | .repairCode sep _ _ _ => sep

/-- The `JobOutput` of `jobs.ts`: full replacement text, the replaced
range and the new cursor position. -/
structure JobOutput where
  text : List Char
  range : IntuitaRange
  position : IntuitaPosition
deriving DecidableEq, Repr

/-- Modelled from the spec: grouping of the string-node sequence into
(separator-before, declaration-text) chunks plus the trailing
remainder — the unit the Reconstructor relocates (spec §4.4). -/
def collectPairs (pending : List Char) :
    List StringNode → List (List Char × List Char) × List Char
  | [] => ([], pending)
  | n :: rest =>
    match n.topLevelNodeIndex with
    | none => collectPairs (pending ++ n.text) rest
    | some _ =>
      let r := collectPairs [] rest
      ((pending, n.text) :: r.1, r.2)

/-- Modelled from the spec: the offset-to-position mapping of §4.4 — the
line index and column of an offset, computed from the text before it. -/
def offsetToPosition (text : List Char) (sep : Char) (offset : Nat) :
    IntuitaPosition :=
  let lines := splitChar sep (text.take offset)
  (lines.length - 1, (lines.getLast?.getD []).length)

/-- Modelled from the spec: `executeMoveTopLevelNodeAstCommandHelper` of
the missing `4_astCommandExecutor.ts` (spec §4.4) — relocate the
declaration chunk from `oldIndex` to `newIndex`, concatenate the chunks
into the new file text, and map the relocated declaration's new start
offset plus `characterDifference` back to a line/column position. -/
def executeMoveTopLevelNodeAstCommandHelper (oldIndex newIndex
    characterDifference : Nat) (stringNodes : List StringNode)
    (separator : Char) : ExecuteResult :=
  let pr := collectPairs [] stringNodes
  let movedPairs := moveElement pr.1 oldIndex newIndex
  let text := (movedPairs.map (fun p => p.1 ++ p.2)).flatten ++ pr.2
  let offset := ((movedPairs.take newIndex).map
      (fun p => (p.1 ++ p.2).length)).sum
    + (movedPairs.getD newIndex ([], [])).1.length + characterDifference
  let position := offsetToPosition text separator offset
  ⟨text, position.1, position.2⟩

/-- Modelled from the spec: the offset of a line/column position, inverse
of `offsetToPosition` (each line costs its length plus one separator). -/
def positionToOffset (text : List Char) (sep : Char) (line column : Nat) :
    Nat :=
  (((splitChar sep text).take line).map (fun l => l.length + 1)).sum + column

/-- Modelled from the spec: `executeRepairCodeCommand` of the missing
`repairCode/commandExecutor.ts` — splice the replacement over the fact's
range and land the cursor at the end of the replacement. -/
def executeRepairCodeCommand (fact : Fact) : ExecuteResult :=
  match fact with
  | .repairCode sep text range replacement =>
    let s := positionToOffset text sep range.1 range.2.1
    let e := positionToOffset text sep range.2.2.1 range.2.2.2
    let newText := text.take s ++ replacement ++ text.drop e
    let position := offsetToPosition newText sep (s + replacement.length)
    ⟨newText, position.1, position.2⟩
  | .moveTopLevelNode _ _ => ⟨[], 0, 0⟩

/-- `JobManager.executeJob` from `components/jobManager.ts`: dispatch on
the job/fact kinds, then wrap the execution into a `JobOutput` whose
`range` is `[0, 0, lastLine, lastColumn]` of the produced text; the
kind-mismatch branch throws in the source and is `none` here. -/
def executeJob (job : Job) (fact : Fact) (characterDifference : Nat) :
    Option JobOutput :=
  match job, fact with
  | .moveTopLevelNode _ oldIndex newIndex,
    .moveTopLevelNode separator stringNodes =>
    let execution := executeMoveTopLevelNodeAstCommandHelper oldIndex
      newIndex characterDifference stringNodes separator
    let lastPosition := calculateLastPosition execution.text separator
    some ⟨execution.text, (0, 0, lastPosition.1, lastPosition.2),
      (execution.line, execution.character)⟩
  | .repairCode .., .repairCode sep _ _ _ =>
    let execution := executeRepairCodeCommand fact
    let lastPosition := calculateLastPosition execution.text sep
    some ⟨execution.text, (0, 0, lastPosition.1, lastPosition.2),
      (execution.line, execution.character)⟩
  | _, _ => none

/-- `upsert` from `leftRightHashes/leftRightHashSetManager.ts`: adds the
concatenated `leftHash + rightHash` string to the underlying set. Hashes
are modelled as `List Char`, the set as a `Finset`. -/
def lrUpsert (S : Finset (List Char)) (leftHash rightHash : List Char) :
    Finset (List Char) :=
  insert (leftHash ++ rightHash) S

/-- `delete` from `leftRightHashSetManager.ts`: removes the concatenated
string. -/
def lrDelete (S : Finset (List Char)) (leftHash rightHash : List Char) :
    Finset (List Char) :=
  S.erase (leftHash ++ rightHash)

/-- `getLeftHashes` from `leftRightHashSetManager.ts`: the first half
(`slice(0, length / 2)`) of every stored string. -/
def lrGetLeftHashes (S : Finset (List Char)) : Finset (List Char) :=
  S.image (fun s => s.take (s.length / 2))

/-- `getRightHashesByLeftHash` from `leftRightHashSetManager.ts`: for
every stored string starting with `leftHash` (`startsWith`), the remainder
after `slice(leftHash.length)`. -/
def lrGetRightHashesByLeftHash (S : Finset (List Char))
    (leftHash : List Char) : Finset (List Char) :=
  (S.filter (fun s => s.take leftHash.length = leftHash)).image
    (fun s => s.drop leftHash.length)

/-- `deleteRightHash` from `leftRightHashSetManager.ts`: removes every
stored string ending with `rightHash` (`endsWith`). -/
def lrDeleteRightHash (S : Finset (List Char)) (rightHash : List Char) :
    Finset (List Char) :=
  S.filter (fun s => ¬ s.drop (s.length - rightHash.length) = rightHash)

/-- The slice of the `JobManager` state (`components/jobManager.ts`) that
one file's rerun touches: the file's entry of
`_moveTopLevelBlockHashMap`, the file's entry of `_repairCodeHashMap`,
and `_jobMap`. -/
structure JobManagerState where
  moveJobHashes : Finset String
  repairJobHashes : Finset String
  jobMap : String → Option Job

/-- The `job?.kind === JobKind.repairCode` test of
`JobManager.onFileTextChanged`. -/
def isRepairJobHash (jobMap : String → Option Job) (h : String) : Bool :=
  match jobMap h with
  | some j => decide (j.kind = JobKindT.repairCode)
  | none => false

/-- `JobManager.onFileTextChanged` from `components/jobManager.ts`, for
one file, with the freshly built move jobs (`buildMoveTopLevelNodeJobs`,
absent from src) passed in: the file's new move-job-hash set is the new
jobs' hashes plus every old hash whose job is a repair-code job; every new
job is upserted into the job map; the repair-code hash map entry is not
touched. -/
def onFileTextChanged (state : JobManagerState) (newJobs : List Job) :
    JobManagerState :=
  let newJobHashes0 : Finset String := (newJobs.map Job.hash).toFinset
  let carried := state.moveJobHashes.filter
    (fun h => isRepairJobHash state.jobMap h = true)
  { moveJobHashes := newJobHashes0 ∪ carried,
    repairJobHashes := state.repairJobHashes,
    jobMap := newJobs.foldl
      (fun m j => fun h2 => if h2 = j.hash then some j else m h2)
      state.jobMap }

theorem jsSlice_append_drop (text : List Char) {a b : Nat} (h : a ≤ b) :
    jsSlice text a b ++ text.drop b = text.drop a := by
  unfold jsSlice
  rw [List.drop_take]
  have hdd : text.drop b = (text.drop a).drop (b - a) := by
    rw [List.drop_drop]
    congr 1
    omega
  rw [hdd, List.take_append_drop]

theorem concatTexts_cons (s : StringNode) (rest : List StringNode) :
    concatTexts (s :: rest) = s.text ++ concatTexts rest := by
  simp [concatTexts]

theorem getStringNodesAux_concat (fileText : List Char)
    (nodes : List TopLevelNode) (prevEnd idx : Nat)
    (hne : nodes ≠ [])
    (hfirst : ∀ h : nodes ≠ [], prevEnd ≤ (nodes.head h).start)
    (hvalid : ∀ node ∈ nodes, node.start ≤ node.stop + 1)
    (hchain : nodes.Chain' (fun a b => a.stop + 1 ≤ b.start)) :
    concatTexts (getStringNodesAux fileText prevEnd idx nodes)
      = fileText.drop prevEnd := by
  induction nodes generalizing prevEnd idx with
  | nil => exact absurd rfl hne
  | cons node rest ih =>
    have hpe : prevEnd ≤ node.start := hfirst (by simp)
    have hv : node.start ≤ node.stop + 1 := hvalid node (by simp)
    cases rest with
    | nil =>
      have step : getStringNodesAux fileText prevEnd idx [node]
          = [⟨jsSlice fileText prevEnd node.start, none⟩,
             ⟨jsSlice fileText node.start (node.stop + 1), some idx⟩,
             ⟨jsSliceFrom fileText (node.stop + 1), none⟩] := rfl
      rw [step, concatTexts_cons, concatTexts_cons, concatTexts_cons]
      simp only [concatTexts, List.map_nil, List.flatten_nil, List.append_nil,
        jsSliceFrom]
      rw [jsSlice_append_drop fileText hv, jsSlice_append_drop fileText hpe]
    | cons next rest2 =>
      have hrec := ih (node.stop + 1) (idx + 1)
        (by simp)
        (by
          intro _
          simpa using (List.chain'_cons.mp hchain).1)
        (by
          intro n hn
          exact hvalid n (List.mem_cons_of_mem node hn))
        (List.chain'_cons.mp hchain).2
      have step : getStringNodesAux fileText prevEnd idx (node :: next :: rest2)
          = ⟨jsSlice fileText prevEnd node.start, none⟩ ::
            ⟨jsSlice fileText node.start (node.stop + 1), some idx⟩ ::
            getStringNodesAux fileText (node.stop + 1) (idx + 1)
              (next :: rest2) := rfl
      rw [step, concatTexts_cons, concatTexts_cons, hrec,
        jsSlice_append_drop fileText hv, jsSlice_append_drop fileText hpe]

theorem getStringNodesAux_length (fileText : List Char)
    (nodes : List TopLevelNode) (prevEnd idx : Nat) (hne : nodes ≠ []) :
    (getStringNodesAux fileText prevEnd idx nodes).length
      = 2 * nodes.length + 1 := by
  induction nodes generalizing prevEnd idx with
  | nil => exact absurd rfl hne
  | cons node rest ih =>
    cases rest with
    | nil => rfl
    | cons next rest2 =>
      have step : getStringNodesAux fileText prevEnd idx (node :: next :: rest2)
          = ⟨jsSlice fileText prevEnd node.start, none⟩ ::
            ⟨jsSlice fileText node.start (node.stop + 1), some idx⟩ ::
            getStringNodesAux fileText (node.stop + 1) (idx + 1)
              (next :: rest2) := rfl
      rw [step]
      simp only [List.length_cons, ih (node.stop + 1) (idx + 1) (by simp),
        List.length_cons]
      ring

theorem getStringNodesAux_filterMap (fileText : List Char)
    (nodes : List TopLevelNode) (prevEnd idx : Nat) :
    (getStringNodesAux fileText prevEnd idx nodes).filterMap
        StringNode.topLevelNodeIndex
      = List.range' idx nodes.length := by
  induction nodes generalizing prevEnd idx with
  | nil => rfl
  | cons node rest ih =>
    cases rest with
    | nil => rfl
    | cons next rest2 =>
      have step : getStringNodesAux fileText prevEnd idx (node :: next :: rest2)
          = ⟨jsSlice fileText prevEnd node.start, none⟩ ::
            ⟨jsSlice fileText node.start (node.stop + 1), some idx⟩ ::
            getStringNodesAux fileText (node.stop + 1) (idx + 1)
              (next :: rest2) := rfl
      rw [step]
      simp only [List.filterMap_cons, ih (node.stop + 1) (idx + 1)]
      simp [List.range'_succ]

theorem countP_eq_sum_getD (p : TopLevelNode → Bool)
    (xs : List TopLevelNode) :
    xs.countP p
      = ∑ j ∈ Finset.range xs.length,
          if p (xs.getD j fallbackNode) = true then 1 else 0 := by
  induction xs with
  | nil => rfl
  | cons x rest ih =>
    rw [List.countP_cons, List.length_cons, Finset.sum_range_succ']
    simp only [List.getD_cons_succ, List.getD_cons_zero]
    rw [← ih]

theorem dependencyViolationCount_eq_sum (nodes : List TopLevelNode) :
    dependencyViolationCount nodes
      = ∑ i ∈ Finset.range nodes.length,
          ∑ j ∈ Finset.range nodes.length,
            if i < j ∧ dependsOnB (nodes.getD i fallbackNode)
                (nodes.getD j fallbackNode) = true
            then 1 else 0 := by
  induction nodes with
  | nil => rfl
  | cons node rest ih =>
    rw [List.length_cons, Finset.sum_range_succ']
    have houter :
        (∑ i ∈ Finset.range rest.length,
          ∑ j ∈ Finset.range (rest.length + 1),
            if i + 1 < j ∧ dependsOnB ((node :: rest).getD (i + 1) fallbackNode)
                ((node :: rest).getD j fallbackNode) = true
            then 1 else 0)
          = dependencyViolationCount rest := by
      rw [ih]
      refine Finset.sum_congr rfl (fun i _ => ?_)
      rw [Finset.sum_range_succ']
      simp only [List.getD_cons_succ, List.getD_cons_zero]
      have h0 : (if i + 1 < 0 ∧
          dependsOnB (rest.getD i fallbackNode) node = true
          then 1 else 0) = 0 := by simp
      rw [h0, add_zero]
      refine Finset.sum_congr rfl (fun j _ => ?_)
      simp [Nat.succ_lt_succ_iff]
    have hzero :
        (∑ j ∈ Finset.range (rest.length + 1),
          if 0 < j ∧ dependsOnB ((node :: rest).getD 0 fallbackNode)
              ((node :: rest).getD j fallbackNode) = true
          then 1 else 0)
          = rest.countP (fun other => dependsOnB node other) := by
      rw [Finset.sum_range_succ']
      simp only [List.getD_cons_succ, List.getD_cons_zero]
      have h0 : (if (0 : ℕ) < 0 ∧ dependsOnB node node = true
          then 1 else 0) = 0 := by simp
      rw [h0, add_zero, countP_eq_sum_getD]
      refine Finset.sum_congr rfl (fun j _ => ?_)
      simp
    rw [houter, hzero]
    simp [dependencyViolationCount, Nat.add_comm]

/-- C2: the dependency coefficient equals the number of ordered position
pairs `(i, j)` with `i < j` whose earlier declaration has a
`childIdentifiers` entry equal to an `identifiers` entry of the later
declaration, divided by the number of declarations; in particular it is
`0` for the empty list, `1/2` for `[a(childIdentifiers={b}), b]` and `0`
for `[a, b(childIdentifiers={a})]`. -/
theorem calculateDependencyCoefficient_spec :
    (∀ nodes : List TopLevelNode, nodes ≠ [] →
      calculateDependencyCoefficient nodes
        = (((Finset.range nodes.length ×ˢ Finset.range nodes.length).filter
              (fun p => p.1 < p.2 ∧
                ∃ s ∈ (nodes.getD p.1 fallbackNode).childIdentifiers,
                  s ∈ (nodes.getD p.2 fallbackNode).identifiers)).card : ℚ)
            / (nodes.length : ℚ)) ∧
    calculateDependencyCoefficient [] = 0 ∧
    calculateDependencyCoefficient
        [buildNode "a" ["b"] TopLevelNodeKind.unknown,
         buildNode "b" [] TopLevelNodeKind.unknown] = 1 / 2 ∧
    calculateDependencyCoefficient
        [buildNode "a" [] TopLevelNodeKind.unknown,
         buildNode "b" ["a"] TopLevelNodeKind.unknown] = 0 := by
  refine ⟨fun nodes hne => ?_, by norm_num [calculateDependencyCoefficient],
    by
      norm_num [calculateDependencyCoefficient, dependencyViolationCount,
        List.countP_cons, dependsOnB, buildNode],
    by
      norm_num [calculateDependencyCoefficient, dependencyViolationCount,
        List.countP_cons, dependsOnB, buildNode]⟩
  have hlen : ¬ nodes.length = 0 := by
    simpa [List.length_eq_zero] using hne
  have hdep : ∀ a b : TopLevelNode,
      (dependsOnB a b = true)
        ↔ ∃ s ∈ a.childIdentifiers, s ∈ b.identifiers := by
    intro a b
    unfold dependsOnB
    rw [List.any_eq_true]
    constructor
    · rintro ⟨s, hs, hc⟩
      exact ⟨s, by simpa using hc, hs⟩
    · rintro ⟨s, hs, hi⟩
      exact ⟨s, hi, by simpa using hs⟩
  have hcount : dependencyViolationCount nodes
      = ((Finset.range nodes.length ×ˢ Finset.range nodes.length).filter
          (fun p => p.1 < p.2 ∧
            ∃ s ∈ (nodes.getD p.1 fallbackNode).childIdentifiers,
              s ∈ (nodes.getD p.2 fallbackNode).identifiers)).card := by
    rw [dependencyViolationCount_eq_sum, Finset.card_filter,
      Finset.sum_product]
    refine Finset.sum_congr rfl (fun i _ => Finset.sum_congr rfl
      (fun j _ => ?_))
    simp only [hdep]
  rw [calculateDependencyCoefficient, if_neg hlen, hcount]

/-- C2 witness: the dependency-coefficient characterization applied to the
two-node list in which the first declaration references the second. -/
theorem calculateDependencyCoefficient_spec_witness :
    ([buildNode "a" ["b"] TopLevelNodeKind.unknown,
      buildNode "b" [] TopLevelNodeKind.unknown] : List TopLevelNode) ≠ [] ∧
    calculateDependencyCoefficient
        [buildNode "a" ["b"] TopLevelNodeKind.unknown,
         buildNode "b" [] TopLevelNodeKind.unknown]
      = (((Finset.range ([buildNode "a" ["b"] TopLevelNodeKind.unknown,
              buildNode "b" [] TopLevelNodeKind.unknown] : List TopLevelNode).length
            ×ˢ Finset.range ([buildNode "a" ["b"] TopLevelNodeKind.unknown,
              buildNode "b" [] TopLevelNodeKind.unknown] : List TopLevelNode).length).filter
            (fun p => p.1 < p.2 ∧
              ∃ s ∈ (([buildNode "a" ["b"] TopLevelNodeKind.unknown,
                  buildNode "b" [] TopLevelNodeKind.unknown] : List TopLevelNode).getD
                    p.1 fallbackNode).childIdentifiers,
                s ∈ (([buildNode "a" ["b"] TopLevelNodeKind.unknown,
                  buildNode "b" [] TopLevelNodeKind.unknown] : List TopLevelNode).getD
                    p.2 fallbackNode).identifiers)).card : ℚ)
          / (([buildNode "a" ["b"] TopLevelNodeKind.unknown,
              buildNode "b" [] TopLevelNodeKind.unknown] : List TopLevelNode).length : ℚ) :=
  ⟨by simp, calculateDependencyCoefficient_spec.1
    [buildNode "a" ["b"] TopLevelNodeKind.unknown,
     buildNode "b" [] TopLevelNodeKind.unknown] (by simp)⟩

/-- C1 counterexample: the empty declaration list is ordered and
non-overlapping and is produced by the Extractor (for example for a file
whose syntax tree has no captured declaration kinds), yet `getStringNodes`
then returns the empty sequence, whose concatenation is empty rather than
the file text. -/
theorem getStringNodes_roundtrip_fails_on_empty_list :
    OrderedNonOverlapping ([] : List TopLevelNode) ∧
      concatTexts (getStringNodes ['a'] []) ≠ ['a'] := by
  refine ⟨⟨by simp, List.chain'_nil⟩, ?_⟩
  decide

/-- C1 (amended): for every file text and every nonempty ordered,
non-overlapping declaration list, concatenating the `text` fields of
`getStringNodes fileText topLevelNodes` in order yields exactly the
original `fileText`. -/
theorem getStringNodes_roundtrip (fileText : List Char)
    (nodes : List TopLevelNode) (hne : nodes ≠ [])
    (hord : OrderedNonOverlapping nodes) :
    concatTexts (getStringNodes fileText nodes) = fileText := by
  have h := getStringNodesAux_concat fileText nodes 0 0 hne
    (fun _ => Nat.zero_le _) hord.1 hord.2
  simpa [getStringNodes] using h

/-- C1 witness: the round-trip theorem applied to a two-character file
with one declaration spanning its first character. -/
theorem getStringNodes_roundtrip_witness :
    concatTexts
        (getStringNodes ['a', 'b']
          [⟨TopLevelNodeKind.unknown, "x", 0, 0, [], []⟩])
      = ['a', 'b'] :=
  getStringNodes_roundtrip ['a', 'b']
    [⟨TopLevelNodeKind.unknown, "x", 0, 0, [], []⟩]
    (by decide) ⟨by decide, List.chain'_singleton _⟩

/-- C10: `getStringNodes` returns the empty sequence for an empty
declaration list (so no string node carries the file text then), and for a
nonempty list of `n` declarations it returns exactly `2 * n + 1` string
nodes whose non-null `topLevelNodeIndex` values are exactly
`0, 1, …, n - 1` in increasing order — each declaration owns exactly one
string node and every other string node is a separator. -/
theorem getStringNodes_structure (fileText : List Char)
    (nodes : List TopLevelNode) :
    (nodes = [] → getStringNodes fileText nodes = []) ∧
      (nodes ≠ [] →
        (getStringNodes fileText nodes).length = 2 * nodes.length + 1 ∧
          (getStringNodes fileText nodes).filterMap
              StringNode.topLevelNodeIndex
            = List.range nodes.length) := by
  refine ⟨fun h => by subst h; rfl, fun hne => ⟨?_, ?_⟩⟩
  · exact getStringNodesAux_length fileText nodes 0 0 hne
  · rw [getStringNodes, getStringNodesAux_filterMap fileText nodes 0 0,
      List.range_eq_range']

/-- C10 witness: the structure theorem evaluated on a concrete
two-declaration list. -/
theorem getStringNodes_structure_witness :
    getStringNodes ['a'] ([] : List TopLevelNode) = [] ∧
      (getStringNodes ['a', 'b', 'c']
          [⟨TopLevelNodeKind.unknown, "x", 0, 0, [], []⟩,
           ⟨TopLevelNodeKind.unknown, "y", 2, 2, [], []⟩]).length
        = 2 * 2 + 1 ∧
      (getStringNodes ['a', 'b', 'c']
          [⟨TopLevelNodeKind.unknown, "x", 0, 0, [], []⟩,
           ⟨TopLevelNodeKind.unknown, "y", 2, 2, [], []⟩]).filterMap
          StringNode.topLevelNodeIndex
        = List.range 2 :=
  ⟨(getStringNodes_structure ['a'] []).1 rfl,
    (getStringNodes_structure ['a', 'b', 'c']
      [⟨TopLevelNodeKind.unknown, "x", 0, 0, [], []⟩,
       ⟨TopLevelNodeKind.unknown, "y", 2, 2, [], []⟩]).2 (by decide)⟩

theorem mem_insertSorted {le : α → α → Bool} {a x : α} {l : List α} :
    a ∈ insertSorted le x l ↔ a = x ∨ a ∈ l := by
  induction l with
  | nil => simp [insertSorted]
  | cons b bs ih =>
    simp only [insertSorted]
    split
    · simp [List.mem_cons]
    · simp only [List.mem_cons, ih]
      tauto

theorem mem_sortBy {le : α → α → Bool} {a : α} {l : List α} :
    a ∈ sortBy le l ↔ a ∈ l := by
  induction l with
  | nil => simp [sortBy]
  | cons x xs ih =>
    simp only [sortBy, mem_insertSorted, ih, List.mem_cons]

theorem buildSolutions_mem {w : CoefficientWeights}
    {nodes : List TopLevelNode} {s : Solution}
    (hs : s ∈ buildSolutions w nodes) :
    s.newIndex ≠ s.oldIndex ∧
      score w s.coefficient < score w (calculateCoefficient nodes) ∧
      s.nodes = nodes ∧
      s.coefficient
        = calculateCoefficient (moveElement nodes s.oldIndex s.newIndex) ∧
      s.oldIndex < nodes.length ∧ s.newIndex < nodes.length := by
  unfold buildSolutions at hs
  by_cases hlen : nodes.length < 2
  · rw [if_pos hlen] at hs
    simp at hs
  · rw [if_neg hlen] at hs
    rw [mem_sortBy] at hs
    simp only [List.mem_flatMap, List.mem_filterMap, List.mem_range] at hs
    obtain ⟨oldI, hold, newI, hnew, heq⟩ := hs
    split_ifs at heq with h1 h2
    · injection heq with heq2
      subst heq2
      exact ⟨h1, h2, rfl, rfl, hold, hnew⟩

/-- C4: the Solution Search returns only improving, non-trivial
solutions — every produced Solution has `newIndex ≠ oldIndex` and a
weighted score strictly lower than the current order's score — and it
produces no solutions for lists with fewer than two declarations or when
no relocation strictly decreases the score. -/
theorem buildSolutions_spec (w : CoefficientWeights)
    (nodes : List TopLevelNode) :
    (∀ s ∈ buildSolutions w nodes,
      s.newIndex ≠ s.oldIndex ∧
        score w s.coefficient < score w (calculateCoefficient nodes)) ∧
    (nodes.length < 2 → buildSolutions w nodes = []) ∧
    ((∀ oldIndex newIndex : Nat, oldIndex < nodes.length →
        newIndex < nodes.length → newIndex ≠ oldIndex →
        ¬ score w (calculateCoefficient (moveElement nodes oldIndex newIndex))
            < score w (calculateCoefficient nodes)) →
      buildSolutions w nodes = []) := by
  refine ⟨fun s hs => ⟨(buildSolutions_mem hs).1, (buildSolutions_mem hs).2.1⟩,
    fun hlen => ?_, fun hno => ?_⟩
  · unfold buildSolutions
    rw [if_pos hlen]
  · by_cases hlen : nodes.length < 2
    · unfold buildSolutions
      rw [if_pos hlen]
    · unfold buildSolutions
      rw [if_neg hlen]
      have hcand : ((List.range nodes.length).flatMap (fun oldIndex =>
          (List.range nodes.length).filterMap (fun newIndex =>
            if newIndex = oldIndex then none
            else
              let c := calculateCoefficient (moveElement nodes oldIndex newIndex)
              if score w c < score w (calculateCoefficient nodes) then
                some (⟨oldIndex, newIndex, nodes, c⟩ : Solution)
              else none))) = [] := by
        rw [List.flatMap_eq_nil_iff]
        intro oldI holdI
        rw [List.filterMap_eq_nil_iff]
        intro newI hnewI
        rw [List.mem_range] at holdI hnewI
        dsimp only
        split_ifs with h1 h2
        · rfl
        · exact absurd h2 (hno oldI newI holdI hnewI h1)
        · rfl
      dsimp only at hcand ⊢
      rw [hcand]
      rfl

theorem jaroWinkler_a_b : jaroWinklerSimilarity ['a'] ['b'] = 0 := by
  have h : jaroData ['a'] ['b'] = (0, 0) := by decide
  norm_num [jaroWinklerSimilarity, jaroSimilarity, h]

theorem jaroWinkler_b_c : jaroWinklerSimilarity ['b'] ['c'] = 0 := by
  have h : jaroData ['b'] ['c'] = (0, 0) := by decide
  norm_num [jaroWinklerSimilarity, jaroSimilarity, h]

theorem jaroWinkler_test_test :
    jaroWinklerSimilarity ['t','e','s','t'] ['t','e','s','t'] = 1 := by
  have h : jaroData ['t','e','s','t'] ['t','e','s','t'] = (4, 0) := by decide
  have hcp : commonPrefixLength ['t','e','s','t'] ['t','e','s','t'] = 4 := by
    decide
  norm_num [jaroWinklerSimilarity, jaroSimilarity, h, hcp]

theorem jaroWinkler_ta_tb : jaroWinklerSimilarity ['t','a'] ['t','b'] = 2/3 := by
  have h : jaroData ['t','a'] ['t','b'] = (1, 0) := by decide
  norm_num [jaroWinklerSimilarity, jaroSimilarity, h]

theorem jaroWinkler_tb_tc : jaroWinklerSimilarity ['t','b'] ['t','c'] = 2/3 := by
  have h : jaroData ['t','b'] ['t','c'] = (1, 0) := by decide
  norm_num [jaroWinklerSimilarity, jaroSimilarity, h]

theorem jaroWinkler_testa_testb :
    jaroWinklerSimilarity ['t','e','s','t','a'] ['t','e','s','t','b']
      = 23/25 := by
  have h : jaroData ['t','e','s','t','a'] ['t','e','s','t','b'] = (4, 0) := by
    decide
  have hcp : commonPrefixLength ['t','e','s','t','a'] ['t','e','s','t','b']
      = 4 := by decide
  norm_num [jaroWinklerSimilarity, jaroSimilarity, h, hcp]

theorem jaroWinkler_testb_testc :
    jaroWinklerSimilarity ['t','e','s','t','b'] ['t','e','s','t','c']
      = 23/25 := by
  have h : jaroData ['t','e','s','t','b'] ['t','e','s','t','c'] = (4, 0) := by
    decide
  have hcp : commonPrefixLength ['t','e','s','t','b'] ['t','e','s','t','c']
      = 4 := by decide
  norm_num [jaroWinklerSimilarity, jaroSimilarity, h, hcp]

theorem jaroWinkler_function_class :
    jaroWinklerSimilarity ['f','u','n','c','t','i','o','n']
      ['c','l','a','s','s'] = 53/120 := by
  have h : jaroData ['f','u','n','c','t','i','o','n'] ['c','l','a','s','s']
      = (1, 0) := by decide
  norm_num [jaroWinklerSimilarity, jaroSimilarity, h]

theorem jaroWinkler_class_method :
    jaroWinklerSimilarity ['c','l','a','s','s'] ['m','e','t','h','o','d']
      = 0 := by
  have h : jaroData ['c','l','a','s','s'] ['m','e','t','h','o','d']
      = (0, 0) := by decide
  norm_num [jaroWinklerSimilarity, jaroSimilarity, h]

/-- C3: the similarity coefficient, with second argument `0`, reproduces
the spec's literal values: `0` for the empty list, `1` for names
`a, b, c`, approximately `0` for three names `test`, approximately `0.33`
for `ta, tb, tc`, approximately `0.08` for `testa, testb, testc` and
approximately `0.55` for `function, class, method` (each within the
tolerance `0.01` the repository's unit tests use, the exact cases within
`0.0001`). -/
theorem calculateSimilarityCoefficient_spec :
    calculateSimilarityCoefficient [] 0 = 0 ∧
    calculateSimilarityCoefficient
        [buildNode "a" [] TopLevelNodeKind.unknown,
         buildNode "b" [] TopLevelNodeKind.unknown,
         buildNode "c" [] TopLevelNodeKind.unknown] 0 = 1 ∧
    |calculateSimilarityCoefficient
        [buildNode "test" [] TopLevelNodeKind.unknown,
         buildNode "test" [] TopLevelNodeKind.unknown,
         buildNode "test" [] TopLevelNodeKind.unknown] 0 - 0| ≤ 1/100 ∧
    |calculateSimilarityCoefficient
        [buildNode "ta" [] TopLevelNodeKind.unknown,
         buildNode "tb" [] TopLevelNodeKind.unknown,
         buildNode "tc" [] TopLevelNodeKind.unknown] 0 - 33/100| ≤ 1/100 ∧
    |calculateSimilarityCoefficient
        [buildNode "testa" [] TopLevelNodeKind.unknown,
         buildNode "testb" [] TopLevelNodeKind.unknown,
         buildNode "testc" [] TopLevelNodeKind.unknown] 0 - 8/100| ≤ 1/100 ∧
    |calculateSimilarityCoefficient
        [buildNode "function" [] TopLevelNodeKind.unknown,
         buildNode "class" [] TopLevelNodeKind.unknown,
         buildNode "method" [] TopLevelNodeKind.unknown] 0 - 55/100|
      ≤ 1/100 := by
  refine ⟨rfl, ?_, ?_, ?_, ?_, ?_⟩
  · norm_num [calculateSimilarityCoefficient, adjacentNameDistances,
      primaryIdentifier, buildNode, jaroWinkler_a_b, jaroWinkler_b_c]
  · have hv : calculateSimilarityCoefficient
        [buildNode "test" [] TopLevelNodeKind.unknown,
         buildNode "test" [] TopLevelNodeKind.unknown,
         buildNode "test" [] TopLevelNodeKind.unknown] 0 = 0 := by
      norm_num [calculateSimilarityCoefficient, adjacentNameDistances,
        primaryIdentifier, buildNode, jaroWinkler_test_test]
    rw [hv, abs_le]
    norm_num
  · have hv : calculateSimilarityCoefficient
        [buildNode "ta" [] TopLevelNodeKind.unknown,
         buildNode "tb" [] TopLevelNodeKind.unknown,
         buildNode "tc" [] TopLevelNodeKind.unknown] 0 = 1/3 := by
      norm_num [calculateSimilarityCoefficient, adjacentNameDistances,
        primaryIdentifier, buildNode, jaroWinkler_ta_tb, jaroWinkler_tb_tc]
    rw [hv, abs_le]
    norm_num
  · have hv : calculateSimilarityCoefficient
        [buildNode "testa" [] TopLevelNodeKind.unknown,
         buildNode "testb" [] TopLevelNodeKind.unknown,
         buildNode "testc" [] TopLevelNodeKind.unknown] 0 = 2/25 := by
      norm_num [calculateSimilarityCoefficient, adjacentNameDistances,
        primaryIdentifier, buildNode, jaroWinkler_testa_testb,
        jaroWinkler_testb_testc]
    rw [hv, abs_le]
    norm_num
  · have hv : calculateSimilarityCoefficient
        [buildNode "function" [] TopLevelNodeKind.unknown,
         buildNode "class" [] TopLevelNodeKind.unknown,
         buildNode "method" [] TopLevelNodeKind.unknown] 0 = 67/120 := by
      norm_num [calculateSimilarityCoefficient, adjacentNameDistances,
        primaryIdentifier, buildNode, jaroWinkler_function_class,
        jaroWinkler_class_method]
    rw [hv, abs_le]
    norm_num

theorem jaroWinkler_b_a : jaroWinklerSimilarity ['b'] ['a'] = 0 := by
  have h : jaroData ['b'] ['a'] = (0, 0) := by decide
  norm_num [jaroWinklerSimilarity, jaroSimilarity, h]

theorem calculateCoefficient_sampleAB :
    calculateCoefficient
      [buildNode "a" ["b"] TopLevelNodeKind.unknown,
       buildNode "b" [] TopLevelNodeKind.unknown] = ⟨1/2, 1, 0⟩ := by
  have hd : calculateDependencyCoefficient
      [buildNode "a" ["b"] TopLevelNodeKind.unknown,
       buildNode "b" [] TopLevelNodeKind.unknown] = 1/2 := by
    norm_num [calculateDependencyCoefficient, dependencyViolationCount,
      List.countP_cons, dependsOnB, buildNode]
  have hs : calculateSimilarityCoefficient
      [buildNode "a" ["b"] TopLevelNodeKind.unknown,
       buildNode "b" [] TopLevelNodeKind.unknown] 0 = 1 := by
    norm_num [calculateSimilarityCoefficient, adjacentNameDistances,
      primaryIdentifier, buildNode, jaroWinkler_a_b]
  have hk : calculateKindCoefficient
      [buildNode "a" ["b"] TopLevelNodeKind.unknown,
       buildNode "b" [] TopLevelNodeKind.unknown] 0 = 0 := by
    norm_num [calculateKindCoefficient, buildNode]
  unfold calculateCoefficient
  rw [hd, hs, hk]

theorem calculateCoefficient_sampleBA :
    calculateCoefficient
      [buildNode "b" [] TopLevelNodeKind.unknown,
       buildNode "a" ["b"] TopLevelNodeKind.unknown] = ⟨0, 1, 0⟩ := by
  have hd : calculateDependencyCoefficient
      [buildNode "b" [] TopLevelNodeKind.unknown,
       buildNode "a" ["b"] TopLevelNodeKind.unknown] = 0 := by
    norm_num [calculateDependencyCoefficient, dependencyViolationCount,
      List.countP_cons, dependsOnB, buildNode]
  have hs : calculateSimilarityCoefficient
      [buildNode "b" [] TopLevelNodeKind.unknown,
       buildNode "a" ["b"] TopLevelNodeKind.unknown] 0 = 1 := by
    norm_num [calculateSimilarityCoefficient, adjacentNameDistances,
      primaryIdentifier, buildNode, jaroWinkler_b_a]
  have hk : calculateKindCoefficient
      [buildNode "b" [] TopLevelNodeKind.unknown,
       buildNode "a" ["b"] TopLevelNodeKind.unknown] 0 = 0 := by
    norm_num [calculateKindCoefficient, buildNode]
  unfold calculateCoefficient
  rw [hd, hs, hk]

theorem buildSolutions_sample_eq :
    buildSolutions unitWeights
      [buildNode "a" ["b"] TopLevelNodeKind.unknown,
       buildNode "b" [] TopLevelNodeKind.unknown]
    = [⟨0, 1, [buildNode "a" ["b"] TopLevelNodeKind.unknown,
         buildNode "b" [] TopLevelNodeKind.unknown], ⟨0, 1, 0⟩⟩,
       ⟨1, 0, [buildNode "a" ["b"] TopLevelNodeKind.unknown,
         buildNode "b" [] TopLevelNodeKind.unknown], ⟨0, 1, 0⟩⟩] := by
  have hm01 : moveElement
      [buildNode "a" ["b"] TopLevelNodeKind.unknown,
       buildNode "b" [] TopLevelNodeKind.unknown] 0 1
      = [buildNode "b" [] TopLevelNodeKind.unknown,
         buildNode "a" ["b"] TopLevelNodeKind.unknown] := rfl
  have hm10 : moveElement
      [buildNode "a" ["b"] TopLevelNodeKind.unknown,
       buildNode "b" [] TopLevelNodeKind.unknown] 1 0
      = [buildNode "b" [] TopLevelNodeKind.unknown,
         buildNode "a" ["b"] TopLevelNodeKind.unknown] := rfl
  have hrange : List.range
      ([buildNode "a" ["b"] TopLevelNodeKind.unknown,
        buildNode "b" [] TopLevelNodeKind.unknown] : List TopLevelNode).length
      = [0, 1] := rfl
  unfold buildSolutions
  rw [if_neg (by simp)]
  rw [hrange]
  simp only [List.flatMap_cons, List.flatMap_nil, List.filterMap_cons,
    List.filterMap_nil, hm01, hm10, calculateCoefficient_sampleAB,
    calculateCoefficient_sampleBA]
  norm_num [score, unitWeights, sortBy, insertSorted, solutionLE, displacement]

/-- C4 witness: the Solution-Search theorem applied to the concrete
two-node list in which the first declaration references the second — its
first produced solution moves and improves — and to a singleton list,
which produces no solutions. -/
theorem buildSolutions_spec_witness :
    ((⟨0, 1, [buildNode "a" ["b"] TopLevelNodeKind.unknown,
        buildNode "b" [] TopLevelNodeKind.unknown], ⟨0, 1, 0⟩⟩ :
        Solution).newIndex
      ≠ (⟨0, 1, [buildNode "a" ["b"] TopLevelNodeKind.unknown,
        buildNode "b" [] TopLevelNodeKind.unknown], ⟨0, 1, 0⟩⟩ :
        Solution).oldIndex ∧
      score unitWeights
        (⟨0, 1, [buildNode "a" ["b"] TopLevelNodeKind.unknown,
          buildNode "b" [] TopLevelNodeKind.unknown], ⟨0, 1, 0⟩⟩ :
          Solution).coefficient
        < score unitWeights (calculateCoefficient
            [buildNode "a" ["b"] TopLevelNodeKind.unknown,
             buildNode "b" [] TopLevelNodeKind.unknown])) ∧
    buildSolutions unitWeights
        [buildNode "a" ["b"] TopLevelNodeKind.unknown] = [] :=
  ⟨(buildSolutions_spec unitWeights
      [buildNode "a" ["b"] TopLevelNodeKind.unknown,
       buildNode "b" [] TopLevelNodeKind.unknown]).1
    ⟨0, 1, [buildNode "a" ["b"] TopLevelNodeKind.unknown,
      buildNode "b" [] TopLevelNodeKind.unknown], ⟨0, 1, 0⟩⟩
    (by rw [buildSolutions_sample_eq]; exact List.mem_cons_self _ _),
   (buildSolutions_spec unitWeights
      [buildNode "a" ["b"] TopLevelNodeKind.unknown]).2.1 (by simp)⟩

/-- C5 counterexample: the Solution Search on
`[a(childIdentifiers={b}), b]` produces the improving move of `a` behind
`b`; the move reduces the dependency coefficient (from `1/2` to `0`) and
reduces neither of the other two, so the claim's dominant penalty is the
dependency coefficient, yet `buildReason` — which compares the
coefficients of the RESULTING order, where the similarity coefficient `1`
is largest — returns "more name similarity". -/
theorem buildReason_not_most_reduced :
    (⟨0, 1, [buildNode "a" ["b"] TopLevelNodeKind.unknown,
        buildNode "b" [] TopLevelNodeKind.unknown], ⟨0, 1, 0⟩⟩ : Solution)
      ∈ buildSolutions unitWeights
        [buildNode "a" ["b"] TopLevelNodeKind.unknown,
         buildNode "b" [] TopLevelNodeKind.unknown] ∧
    buildReason ⟨0, 1, [buildNode "a" ["b"] TopLevelNodeKind.unknown,
        buildNode "b" [] TopLevelNodeKind.unknown], ⟨0, 1, 0⟩⟩
      = some "more name similarity" ∧
    specMostReducedReason
        (calculateCoefficient
          [buildNode "a" ["b"] TopLevelNodeKind.unknown,
           buildNode "b" [] TopLevelNodeKind.unknown])
        (⟨0, 1, 0⟩ : Coefficient)
      = some "more ordered dependencies" ∧
    buildReason (⟨0, 1, [buildNode "a" ["b"] TopLevelNodeKind.unknown,
        buildNode "b" [] TopLevelNodeKind.unknown], ⟨0, 1, 0⟩⟩ : Solution)
      ≠ specMostReducedReason
          (calculateCoefficient
            [buildNode "a" ["b"] TopLevelNodeKind.unknown,
             buildNode "b" [] TopLevelNodeKind.unknown])
          (⟨0, 1, 0⟩ : Coefficient) := by
  refine ⟨by rw [buildSolutions_sample_eq]; exact List.mem_cons_self _ _,
    by decide, ?_, ?_⟩
  · rw [calculateCoefficient_sampleAB]
    norm_num [specMostReducedReason]
  · rw [calculateCoefficient_sampleAB]
    have h1 : buildReason ⟨0, 1,
        [buildNode "a" ["b"] TopLevelNodeKind.unknown,
         buildNode "b" [] TopLevelNodeKind.unknown], ⟨0, 1, 0⟩⟩
        = some "more name similarity" := by decide
    have h2 : specMostReducedReason (⟨1/2, 1, 0⟩ : Coefficient)
        (⟨0, 1, 0⟩ : Coefficient) = some "more ordered dependencies" := by
      norm_num [specMostReducedReason]
    rw [h1, h2]
    simp

/-- C5 (amended): the reason attached to a solution names the coefficient
that is the STRICT MAXIMUM of the three coefficients of the resulting
order — "more ordered dependencies" when the dependency coefficient is
strictly greatest, "more name similarity" for the similarity coefficient,
"more same-type blocks" for the kind coefficient — and is null when no
coefficient strictly dominates the other two. -/
theorem buildReason_spec (s : Solution) :
    (buildReason s = some "more ordered dependencies" ↔
      s.coefficient.dependencyCoefficient
          > s.coefficient.similarityCoefficient ∧
        s.coefficient.dependencyCoefficient > s.coefficient.kindCoefficient) ∧
    (buildReason s = some "more name similarity" ↔
      s.coefficient.similarityCoefficient
          > s.coefficient.dependencyCoefficient ∧
        s.coefficient.similarityCoefficient > s.coefficient.kindCoefficient) ∧
    (buildReason s = some "more same-type blocks" ↔
      s.coefficient.kindCoefficient > s.coefficient.similarityCoefficient ∧
        s.coefficient.kindCoefficient
          > s.coefficient.dependencyCoefficient) ∧
    (buildReason s = none ↔
      ¬ (s.coefficient.dependencyCoefficient
            > s.coefficient.similarityCoefficient ∧
          s.coefficient.dependencyCoefficient
            > s.coefficient.kindCoefficient) ∧
      ¬ (s.coefficient.similarityCoefficient
            > s.coefficient.dependencyCoefficient ∧
          s.coefficient.similarityCoefficient
            > s.coefficient.kindCoefficient) ∧
      ¬ (s.coefficient.kindCoefficient
            > s.coefficient.similarityCoefficient ∧
          s.coefficient.kindCoefficient
            > s.coefficient.dependencyCoefficient)) := by
  unfold buildReason
  split_ifs with h1 h2 h3
  · exact ⟨iff_of_true rfl h1,
      iff_of_false (by simp) (fun hc => lt_asymm h1.1 hc.1),
      iff_of_false (by simp) (fun hc => lt_asymm h1.2 hc.2),
      iff_of_false (by simp) (fun hr => hr.1 h1)⟩
  · exact ⟨iff_of_false (by simp) h1,
      iff_of_true rfl h2,
      iff_of_false (by simp) (fun hc => lt_asymm h2.2 hc.1),
      iff_of_false (by simp) (fun hr => hr.2.1 h2)⟩
  · exact ⟨iff_of_false (by simp) h1,
      iff_of_false (by simp) h2,
      iff_of_true rfl h3,
      iff_of_false (by simp) (fun hr => hr.2.2 h3)⟩
  · exact ⟨iff_of_false (by simp) h1,
      iff_of_false (by simp) h2,
      iff_of_false (by simp) h3,
      iff_of_true rfl ⟨h1, h2, h3⟩⟩

/-- C6: for every invocation of the code-action provider (from the point
where the fact's solutions have been computed), the returned list of code
actions has length at most one, and every returned action is built from
the head — the top-ranked — of the improving-solution list. -/
theorem provideCodeActions_spec (w : CoefficientWeights) (fileName : String)
    (characterDifference : Nat) (nodes : List TopLevelNode) :
    (provideCodeActions fileName characterDifference
        (buildSolutions w nodes)).length ≤ 1 ∧
    ∀ ca ∈ provideCodeActions fileName characterDifference
        (buildSolutions w nodes),
      ∃ s, (buildSolutions w nodes).head? = some s ∧
        buildCodeAction fileName characterDifference s = some ca := by
  have hfil : (buildSolutions w nodes).filter
      (fun s => s.newIndex != s.oldIndex) = buildSolutions w nodes := by
    apply List.filter_eq_self.mpr
    intro s hs
    have hne := (buildSolutions_mem hs).1
    simpa using hne
  constructor
  · unfold provideCodeActions
    exact le_trans (List.length_filterMap_le _ _)
      (le_trans (List.length_take_le _ _) (le_refl 1))
  · intro ca hca
    unfold provideCodeActions at hca
    rw [hfil, List.mem_filterMap] at hca
    obtain ⟨s, hsmem, hbca⟩ := hca
    refine ⟨s, ?_, hbca⟩
    cases hsols : buildSolutions w nodes with
    | nil => rw [hsols] at hsmem; simp at hsmem
    | cons x xs =>
      rw [hsols] at hsmem
      simp [List.take] at hsmem
      rw [hsmem]
      rfl

/-- C6 witness: on the concrete two-node example the provider returns
exactly one code action, built from the head solution. -/
theorem provideCodeActions_spec_witness :
    (provideCodeActions "f" 0 (buildSolutions unitWeights
        [buildNode "a" ["b"] TopLevelNodeKind.unknown,
         buildNode "b" [] TopLevelNodeKind.unknown])).length ≤ 1 ∧
    ∃ s, (buildSolutions unitWeights
        [buildNode "a" ["b"] TopLevelNodeKind.unknown,
         buildNode "b" [] TopLevelNodeKind.unknown]).head? = some s ∧
      buildCodeAction "f" 0 s
        = some ⟨"Move after a  (more name similarity)", ⟨"f", 0, 1, 0⟩⟩ :=
  ⟨(provideCodeActions_spec unitWeights "f" 0
      [buildNode "a" ["b"] TopLevelNodeKind.unknown,
       buildNode "b" [] TopLevelNodeKind.unknown]).1,
   (provideCodeActions_spec unitWeights "f" 0
      [buildNode "a" ["b"] TopLevelNodeKind.unknown,
       buildNode "b" [] TopLevelNodeKind.unknown]).2
    ⟨"Move after a  (more name similarity)", ⟨"f", 0, 1, 0⟩⟩
    (by rw [provideCodeActions, buildSolutions_sample_eq]; decide)⟩

/-- C7: every successfully executed job returns a `JobOutput` whose
`range` is exactly `[0, 0, lastLine, lastColumn]`, where `lastLine` and
`lastColumn` are the line index and column of the final position of the
newly produced text — the reconstructor always proposes replacing the
whole file. -/
theorem executeJob_range_spec (job : Job) (fact : Fact)
    (characterDifference : Nat) (out : JobOutput)
    (h : executeJob job fact characterDifference = some out) :
    out.range
      = (0, 0, (splitChar fact.separator out.text).length - 1,
          ((splitChar fact.separator out.text).getLast?.getD []).length) := by
  cases job with
  | moveTopLevelNode jh oldIndex newIndex =>
    cases fact with
    | moveTopLevelNode sep stringNodes =>
      simp only [executeJob] at h
      injection h with h2
      subst h2
      rfl
    | repairCode sep text range replacement =>
      simp only [executeJob] at h
      exact Option.noConfusion h
  | repairCode jh range replacement =>
    cases fact with
    | moveTopLevelNode sep stringNodes =>
      simp only [executeJob] at h
      exact Option.noConfusion h
    | repairCode sep text frange freplacement =>
      simp only [executeJob] at h
      injection h with h2
      subst h2
      rfl

/-- C7 witness: the range theorem applied to a concrete move job over two
string nodes, where the produced text `yx\n` ends at line 1, column 0. -/
theorem executeJob_range_spec_witness :
    executeJob (Job.moveTopLevelNode "j" 0 1)
        (Fact.moveTopLevelNode '\n'
          [⟨['x', '\n'], some 0⟩, ⟨['y'], some 1⟩]) 0
      = some ⟨['y', 'x', '\n'], (0, 0, 1, 0), (0, 1)⟩ ∧
    (⟨['y', 'x', '\n'], (0, 0, 1, 0), (0, 1)⟩ : JobOutput).range
      = (0, 0,
          (splitChar (Fact.separator (Fact.moveTopLevelNode '\n'
            [⟨['x', '\n'], some 0⟩, ⟨['y'], some 1⟩]))
            (⟨['y', 'x', '\n'], (0, 0, 1, 0), (0, 1)⟩ : JobOutput).text).length
            - 1,
          ((splitChar (Fact.separator (Fact.moveTopLevelNode '\n'
            [⟨['x', '\n'], some 0⟩, ⟨['y'], some 1⟩]))
            (⟨['y', 'x', '\n'], (0, 0, 1, 0), (0, 1)⟩ :
              JobOutput).text).getLast?.getD []).length) :=
  ⟨by decide,
    executeJob_range_spec (Job.moveTopLevelNode "j" 0 1)
      (Fact.moveTopLevelNode '\n'
        [⟨['x', '\n'], some 0⟩, ⟨['y'], some 1⟩]) 0
      ⟨['y', 'x', '\n'], (0, 0, 1, 0), (0, 1)⟩ (by decide)⟩

/-- C8: with all left and right hashes of one fixed length `k`, the
bidirectional hash index behaves as a binary relation — after
`upsert(l, r)` the right hashes of `l` contain `r` and the left hashes
contain `l`; `delete(l, r)` removes exactly the pair `(l, r)` and leaves
every other stored pair intact; `deleteRightHash(r)` removes exactly the
pairs whose right component is `r`. -/
theorem leftRightHashSetManager_spec (k : Nat) (S : Finset (List Char))
    (l r : List Char) (hl : l.length = k) (hr : r.length = k) :
    (r ∈ lrGetRightHashesByLeftHash (lrUpsert S l r) l ∧
      l ∈ lrGetLeftHashes (lrUpsert S l r)) ∧
    ((l ++ r) ∉ lrDelete S l r ∧
      ∀ l2 r2 : List Char, l2.length = k → (l2, r2) ≠ (l, r) →
        ((l2 ++ r2) ∈ lrDelete S l r ↔ (l2 ++ r2) ∈ S)) ∧
    (∀ l2 r2 : List Char, r2.length = k →
      ((l2 ++ r2) ∈ lrDeleteRightHash S r ↔
        (l2 ++ r2) ∈ S ∧ r2 ≠ r)) := by
  refine ⟨⟨?_, ?_⟩, ⟨Finset.not_mem_erase _ _, ?_⟩, ?_⟩
  · rw [lrGetRightHashesByLeftHash, Finset.mem_image]
    refine ⟨l ++ r, ?_, List.drop_left l r⟩
    rw [Finset.mem_filter]
    exact ⟨Finset.mem_insert_self _ _, List.take_left l r⟩
  · rw [lrGetLeftHashes, Finset.mem_image]
    refine ⟨l ++ r, Finset.mem_insert_self _ _, ?_⟩
    have hhalf : (l ++ r).length / 2 = l.length := by
      rw [List.length_append, hl, hr]
      omega
    rw [hhalf]
    exact List.take_left l r
  · intro l2 r2 hl2 hne
    have hne2 : l2 ++ r2 ≠ l ++ r := by
      intro he
      obtain ⟨h1, h2⟩ := List.append_inj he (hl2.trans hl.symm)
      exact hne (by rw [h1, h2])
    rw [lrDelete, Finset.mem_erase]
    exact ⟨fun hx => hx.2, fun hx => ⟨hne2, hx⟩⟩
  · intro l2 r2 hr2
    have hd : (l2 ++ r2).drop ((l2 ++ r2).length - r.length) = r2 := by
      have hlen : (l2 ++ r2).length - r.length = l2.length := by
        rw [List.length_append, hr2, hr]
        omega
      rw [hlen]
      exact List.drop_left l2 r2
    rw [lrDeleteRightHash, Finset.mem_filter, hd]

/-- C8 witness: the hash-index theorem applied at hash length one to the
store `{"ab", "cb"}` with the pair `(a, b)` and the other pair
`(c, b)`. -/
theorem leftRightHashSetManager_spec_witness :
    (['b'] ∈ lrGetRightHashesByLeftHash
        (lrUpsert {['a', 'b'], ['c', 'b']} ['a'] ['b']) ['a'] ∧
      ['a'] ∈ lrGetLeftHashes
        (lrUpsert {['a', 'b'], ['c', 'b']} ['a'] ['b'])) ∧
    ((['c'] ++ ['b']) ∈ lrDelete {['a', 'b'], ['c', 'b']} ['a'] ['b'] ↔
      (['c'] ++ ['b']) ∈ ({['a', 'b'], ['c', 'b']} : Finset (List Char))) ∧
    ((['c'] ++ ['b']) ∈ lrDeleteRightHash {['a', 'b'], ['c', 'b']} ['b'] ↔
      (['c'] ++ ['b']) ∈ ({['a', 'b'], ['c', 'b']} : Finset (List Char)) ∧
        (['b'] : List Char) ≠ ['b']) :=
  ⟨(leftRightHashSetManager_spec 1 {['a', 'b'], ['c', 'b']} ['a'] ['b']
      rfl rfl).1,
    (leftRightHashSetManager_spec 1 {['a', 'b'], ['c', 'b']} ['a'] ['b']
      rfl rfl).2.1.2 ['c'] ['b'] rfl (by decide),
    (leftRightHashSetManager_spec 1 {['a', 'b'], ['c', 'b']} ['a'] ['b']
      rfl rfl).2.2 ['c'] ['b'] rfl⟩

theorem foldl_jobMap_not_mem (jobs : List Job) (m : String → Option Job)
    (h : String) (hnot : h ∉ jobs.map Job.hash) :
    (jobs.foldl (fun m j => fun h2 => if h2 = j.hash then some j else m h2)
      m) h = m h := by
  induction jobs generalizing m with
  | nil => rfl
  | cons j rest ih =>
    simp only [List.map_cons, List.mem_cons] at hnot
    push_neg at hnot
    rw [List.foldl_cons, ih _ hnot.2]
    simp [hnot.1]

/-- C9: on a file-text-changed rerun, every previously stored repair-code
job of the file is preserved — its hash stays in the file's new
move-job-hash set and its job record stays in the job map — while every
move-top-level-node job not regenerated by the rerun is retired from the
file's job-hash set; the file's repair-code hash-set entry is untouched.
(The hash spaces of the two job families are disjoint in the source, so
the preserved hash is assumed not to collide with a regenerated one.) -/
theorem onFileTextChanged_spec (state : JobManagerState)
    (newJobs : List Job) (h : String) (j : Job)
    (hmem : h ∈ state.moveJobHashes)
    (hjob : state.jobMap h = some j)
    (hnot : h ∉ newJobs.map Job.hash) :
    (j.kind = JobKindT.repairCode →
      h ∈ (onFileTextChanged state newJobs).moveJobHashes ∧
        (onFileTextChanged state newJobs).jobMap h = some j) ∧
    (j.kind = JobKindT.moveTopLevelNode →
      h ∉ (onFileTextChanged state newJobs).moveJobHashes) ∧
    (onFileTextChanged state newJobs).repairJobHashes
      = state.repairJobHashes := by
  refine ⟨fun hrk => ⟨?_, ?_⟩, fun hmk => ?_, rfl⟩
  · show h ∈ _ ∪ _
    refine Finset.mem_union_right _ (Finset.mem_filter.mpr ⟨hmem, ?_⟩)
    simp [isRepairJobHash, hjob, hrk]
  · show (newJobs.foldl _ state.jobMap) h = some j
    rw [foldl_jobMap_not_mem newJobs state.jobMap h hnot, hjob]
  · show h ∉ _ ∪ _
    rw [Finset.mem_union]
    rintro (hmem0 | hcar)
    · rw [List.mem_toFinset] at hmem0
      exact hnot hmem0
    · rw [Finset.mem_filter] at hcar
      have hpred := hcar.2
      rw [isRepairJobHash, hjob] at hpred
      simp [hmk] at hpred

/-- C9 witness: the rerun theorem applied to a file holding one repair
job (`r1`) and one move job (`m1`), rerun with one fresh move job
(`m2`) — `r1` survives in the set and the map, `m1` is retired. -/
theorem onFileTextChanged_spec_witness :
    ("r1" ∈ (onFileTextChanged
        ⟨{"r1", "m1"}, ∅,
          fun h => if h = "r1" then some (Job.repairCode "r1" (0, 0, 0, 0) [])
            else if h = "m1" then some (Job.moveTopLevelNode "m1" 0 1)
            else none⟩
        [Job.moveTopLevelNode "m2" 1 0]).moveJobHashes ∧
      (onFileTextChanged
        ⟨{"r1", "m1"}, ∅,
          fun h => if h = "r1" then some (Job.repairCode "r1" (0, 0, 0, 0) [])
            else if h = "m1" then some (Job.moveTopLevelNode "m1" 0 1)
            else none⟩
        [Job.moveTopLevelNode "m2" 1 0]).jobMap "r1"
        = some (Job.repairCode "r1" (0, 0, 0, 0) [])) ∧
    "m1" ∉ (onFileTextChanged
        ⟨{"r1", "m1"}, ∅,
          fun h => if h = "r1" then some (Job.repairCode "r1" (0, 0, 0, 0) [])
            else if h = "m1" then some (Job.moveTopLevelNode "m1" 0 1)
            else none⟩
        [Job.moveTopLevelNode "m2" 1 0]).moveJobHashes :=
  ⟨(onFileTextChanged_spec
      ⟨{"r1", "m1"}, ∅,
        fun h => if h = "r1" then some (Job.repairCode "r1" (0, 0, 0, 0) [])
          else if h = "m1" then some (Job.moveTopLevelNode "m1" 0 1)
          else none⟩
      [Job.moveTopLevelNode "m2" 1 0] "r1"
      (Job.repairCode "r1" (0, 0, 0, 0) [])
      (by decide) (by decide) (by decide)).1 rfl,
   (onFileTextChanged_spec
      ⟨{"r1", "m1"}, ∅,
        fun h => if h = "r1" then some (Job.repairCode "r1" (0, 0, 0, 0) [])
          else if h = "m1" then some (Job.moveTopLevelNode "m1" 0 1)
          else none⟩
      [Job.moveTopLevelNode "m2" 1 0] "m1"
      (Job.moveTopLevelNode "m1" 0 1)
      (by decide) (by decide) (by decide)).2.1 rfl⟩

end Intuita
